import Mathlib

/-!
Shallow embedding of the collection authorization and listing engine of the
Projet_AoS_APP5 backend (collection service, media service and their shared
pagination logic), together with theorems settling the frozen claims about it.

Conventions of the embedding:
* Database rows are Lean structures; the relational store is a `DB` record of
  row lists.  Prisma `findUnique`/`findFirst` become `List.find?`, nested
  relation filters become `List.filter`/`List.any` over the corresponding
  tables, and `ORDER BY` becomes a stable insertion sort by the comparator the
  code passes to Prisma.
* Opaque string ids are modelled as `Nat` (only equality and the `id ASC`
  tiebreak order are ever used on them).
* `AppError(message, status)` thrown by the TypeScript code becomes the
  `err` constructor of `Result`; a function that throws is a function into
  `Result`.  An operation that mutates the store returns the new `DB` on
  success; an error means the store is unchanged (the code throws before any
  write in those paths).
* JavaScript truthiness defaulting (`x || d`, where `0` and `""` are falsy)
  is modelled by `jsOrNat` / `jsOrStr` / `strPresent`.
-/

namespace AoS

/-- Collection visibility, from the Prisma enum `Visibility`. -/
inductive Visibility where
  | PUBLIC
  | PRIVATE
deriving DecidableEq

/-- Membership role, from the Prisma enum `CollectionRole`. -/
inductive CollectionRole where
  | OWNER
  | COLLABORATOR
  | READER
deriving DecidableEq

/-- A `Collection` row. -/
structure Collection where
  id : Nat
  name : String
  description : String
  tags : List String
  visibility : Visibility
  ownerId : Nat
  createdAt : Nat
  updatedAt : Nat
deriving DecidableEq

/-- A `Media` row. -/
structure Media where
  id : Nat
  title : String
  description : String
  tags : List String
  platforms : List String
  type : String
  createdAt : Nat
  releaseDate : Nat
deriving DecidableEq

/-- A `CollectionMedia` join row linking one collection and one media. -/
structure CollectionMedia where
  id : Nat
  collectionId : Nat
  mediaId : Nat
  position : Nat
  addedAt : Nat
deriving DecidableEq

/-- A `CollectionUser` membership row (invitation / accepted membership). -/
structure CollectionUser where
  id : Nat
  collectionId : Nat
  userId : Nat
  role : CollectionRole
  accepted : Bool
  invitedAt : Nat
deriving DecidableEq

/-- The relational store: all tables the engine touches.  Users are reduced to
their ids, the only attribute this core reads. -/
structure DB where
  users : List Nat
  collections : List Collection
  media : List Media
  collectionMedia : List CollectionMedia
  collectionUsers : List CollectionUser
deriving DecidableEq

/-- `AppError(message, status)` from `middleware/errorHandler`. -/
structure AppError where
  message : String
  status : Nat
deriving DecidableEq

/-- Outcome of a service call: the returned value, or a thrown `AppError`. -/
inductive Result (α : Type) where
  | ok (val : α)
  | err (e : AppError)
deriving DecidableEq

/-- JavaScript `v || d` on numbers (`0` and absence are falsy). -/
def jsOrNat (v : Option Nat) (d : Nat) : Nat :=
  match v with
  | some n => if n == 0 then d else n
  | none => d

/-- JavaScript `v || d` on strings (`""` and absence are falsy). -/
def jsOrStr (v : Option String) (d : String) : String :=
  match v with
  | some s => if s == "" then d else s
  | none => d

/-- JavaScript truthiness of an optional string: `""` counts as absent. -/
def strPresent (v : Option String) : Option String :=
  match v with
  | none => none
  | some s => if s == "" then none else some s

/-- `parseCommaSeparated` from both services: a comma-separated parameter is
preferred over the singular one; entries are trimmed and empties dropped. -/
def parseCommaSeparated (commaSeparated single : Option String) : List String :=
  match strPresent commaSeparated with
  | some s => ((s.splitOn ",").map String.trim).filter (fun t => t != "")
  | none =>
    match strPresent single with
    | some s => [s]
    | none => []

/-- Prisma `hasSome`: the row's array has at least one of the wanted values. -/
def hasSomeOf (rowValues wanted : List String) : Bool :=
  wanted.any (fun t => rowValues.contains t)

/-- Whether `needle` occurs contiguously inside `hay`. -/
def containsSeq (needle : List Char) : List Char → Bool
  | [] => needle.isEmpty
  | c :: rest => needle.isPrefixOf (c :: rest) || containsSeq needle rest

/-- Prisma `contains` with `mode: insensitive`: case-insensitive substring. -/
def containsInsensitive (hay needle : String) : Bool :=
  containsSeq needle.toLower.toList hay.toLower.toList

/-! ### Collection access control (`collectionService`) -/

/-- The accepted membership rows of `userId` on `collectionId`, as selected by
`members: { where: { userId, accepted: true } }` in `requireCollectionRole`. -/
def acceptedMemberRoles (db : DB) (collectionId userId : Nat) : List CollectionRole :=
  (db.collectionUsers.filter
    (fun m => m.collectionId == collectionId && m.userId == userId && m.accepted)).map (·.role)

/-- `collectionService.requireCollectionRole`: existence check first
(`NotFound` 404), then owner shortcut when `OWNER` is among the allowed
roles, then accepted-membership role check, else `Forbidden` 403. -/
def requireCollectionRole (db : DB) (collectionId userId : Nat)
    (allowedRoles : List CollectionRole) : Result Unit :=
  match db.collections.find? (fun c => c.id == collectionId) with
  | none => .err ⟨"Collection not found", 404⟩
  | some collection =>
    let isOwner := collection.ownerId == userId
    if isOwner && allowedRoles.contains CollectionRole.OWNER then .ok ()
    else
      let roles := acceptedMemberRoles db collectionId userId
      if roles.any (fun role => allowedRoles.contains role) then .ok ()
      else .err ⟨"Forbidden", 403⟩

/-- `collectionService.buildAccessWhere`, evaluated as a predicate on a
collection row: PUBLIC for anonymous callers, else PUBLIC or owned or an
accepted membership exists for the caller. -/
def evalCollectionAccess (db : DB) (userId : Option Nat) (c : Collection) : Bool :=
  let publicAccess := c.visibility == Visibility.PUBLIC
  match userId with
  | none => publicAccess
  | some uid =>
    publicAccess ||
      (c.ownerId == uid ||
        db.collectionUsers.any
          (fun m => m.collectionId == c.id && m.userId == uid && m.accepted))

/-- `collectionService.getById`: `findFirst` under `AND [{id}, accessWhere]`. -/
def collectionGetById (db : DB) (id : Nat) (userId : Option Nat) : Option Collection :=
  db.collections.find? (fun c => c.id == id && evalCollectionAccess db userId c)

/-! ### Membership operations (`collectionService`) -/

/-- `findUnique` on the `(collectionId, userId)` compound key of
`CollectionUser`. -/
def findMembership (db : DB) (collectionId userId : Nat) : Option CollectionUser :=
  db.collectionUsers.find? (fun m => m.collectionId == collectionId && m.userId == userId)

/-- The store after `collectionUser.update({where: compound key, data:
{accepted: true}})`. -/
def acceptMembership (db : DB) (collectionId userId : Nat) : DB :=
  { db with
    collectionUsers := db.collectionUsers.map
      (fun m =>
        if m.collectionId == collectionId && m.userId == userId then
          { m with accepted := true }
        else m) }

/-- The store after `collectionUser.delete({where: compound key})`. -/
def removeMembership (db : DB) (collectionId userId : Nat) : DB :=
  { db with
    collectionUsers := db.collectionUsers.filter
      (fun m => !(m.collectionId == collectionId && m.userId == userId)) }

/-- `collectionService.respondToInvitation`: `NotFound` when no row exists for
the pair, `Conflict` (400, "Invitation already accepted") when the row is
already accepted, acceptance persists `accepted = true` and returns the
updated row, rejection deletes the row and returns nothing. -/
def respondToInvitation (db : DB) (collectionId userId : Nat) (accept : Bool) :
    Result (Option CollectionUser × DB) :=
  match findMembership db collectionId userId with
  | none => .err ⟨"Invitation not found", 404⟩
  | some invitation =>
    if invitation.accepted then .err ⟨"Invitation already accepted", 400⟩
    else if accept then
      .ok (some { invitation with accepted := true }, acceptMembership db collectionId userId)
    else
      .ok (none, removeMembership db collectionId userId)

/-- `collectionService.addMemberToCollection`: owner-only role check, then the
invited user must exist (404), then `Conflict` (400, "User already a member")
when a membership row already exists for the pair, else a new unaccepted row
is created.  `newId`/`invitedAt` stand for the storage-generated id and
timestamp. -/
def addMemberToCollection (db : DB) (collectionId memberUserId : Nat)
    (role : CollectionRole) (userId : Nat) (newId invitedAt : Nat) :
    Result (CollectionUser × DB) :=
  match requireCollectionRole db collectionId userId [CollectionRole.OWNER] with
  | .err e => .err e
  | .ok _ =>
    if !(db.users.contains memberUserId) then .err ⟨"User not found", 404⟩
    else
      match findMembership db collectionId memberUserId with
      | some _ => .err ⟨"User already a member", 400⟩
      | none =>
        let row : CollectionUser :=
          { id := newId, collectionId := collectionId, userId := memberUserId,
            role := role, accepted := false, invitedAt := invitedAt }
        .ok (row, { db with collectionUsers := db.collectionUsers ++ [row] })

/-! ### Media access control (`mediaService`) -/

/-- The collections containing a media, resolved through the `CollectionMedia`
join rows (Prisma `media.collections -> collection`). -/
def mediaContainingCollections (db : DB) (mediaId : Nat) : List Collection :=
  (db.collectionMedia.filter (fun l => l.mediaId == mediaId)).filterMap
    (fun l => db.collections.find? (fun c => c.id == l.collectionId))

/-- `mediaService.buildAccessWhere`, evaluated as a predicate on a media row.
Note the member clause is `members: { some: { userId } }` with no `accepted`
filter, unlike the collection-side access clause. -/
def evalMediaAccess (db : DB) (userId : Option Nat) (m : Media) : Bool :=
  let colls := mediaContainingCollections db m.id
  let publicAccess := colls.any (fun c => c.visibility == Visibility.PUBLIC)
  match userId with
  | none => publicAccess
  | some uid =>
    publicAccess ||
      colls.any (fun c =>
        c.ownerId == uid ||
          db.collectionUsers.any (fun mem => mem.collectionId == c.id && mem.userId == uid))

/-- `mediaService.getById`: `findFirst` under `AND [{id}, accessWhere]`. -/
def mediaGetById (db : DB) (id : Nat) (userId : Option Nat) : Option Media :=
  db.media.find? (fun m => m.id == id && evalMediaAccess db userId m)

/-- The membership rows of `userId` on `collectionId` with no acceptance
filter, as selected by `members: { where: { userId } }` in
`requireMediaRole` and `getCollectionForCreate`. -/
def memberRolesAnyAcceptance (db : DB) (collectionId userId : Nat) : List CollectionRole :=
  (db.collectionUsers.filter
    (fun m => m.collectionId == collectionId && m.userId == userId)).map (·.role)

/-- `mediaService.requireMediaRole`: aggregates over every collection
containing the media; the caller passes when it owns one of them (and
`OWNER` is allowed), or when it holds a membership row — accepted or not —
whose role is allowed in any of them. -/
def requireMediaRole (db : DB) (mediaId userId : Nat)
    (allowedRoles : List CollectionRole) : Result Unit :=
  match db.media.find? (fun m => m.id == mediaId) with
  | none => .err ⟨"Media not found", 404⟩
  | some _ =>
    let colls := mediaContainingCollections db mediaId
    let isOwner := colls.any (fun c => c.ownerId == userId)
    if isOwner && allowedRoles.contains CollectionRole.OWNER then .ok ()
    else
      let roles := colls.flatMap (fun c => memberRolesAnyAcceptance db c.id userId)
      if roles.any (fun role => allowedRoles.contains role) then .ok ()
      else .err ⟨"Forbidden", 403⟩

/-- `mediaService.updateById`: role check with `[OWNER, COLLABORATOR]`, then
the row update.  `none` models the code path that catches a non-`AppError`
storage failure and returns `null`.  The update payload is modelled as a
row transformer `f`. -/
def mediaUpdateById (db : DB) (id : Nat) (f : Media → Media) (userId : Nat) :
    Result (Option Media) × DB :=
  match requireMediaRole db id userId [CollectionRole.OWNER, CollectionRole.COLLABORATOR] with
  | .err e => (.err e, db)
  | .ok _ =>
    match db.media.find? (fun m => m.id == id) with
    | none => (.ok none, db)
    | some m =>
      (.ok (some (f m)),
        { db with media := db.media.map (fun x => if x.id == id then f x else x) })

/-! ### Media creation (`mediaService.createMedia`) -/

/-- `mediaService.getOrCreateDefaultCollection`: `findFirst` on
`{ownerId, name: 'Default'}`, creating a private "Default" collection when
absent.  `newCollectionId` stands for the storage-generated id. -/
def getOrCreateDefaultCollection (db : DB) (userId newCollectionId : Nat) : Nat × DB :=
  match db.collections.find? (fun c => c.ownerId == userId && c.name == "Default") with
  | some c => (c.id, db)
  | none =>
    let c : Collection :=
      { id := newCollectionId, name := "Default", description := "Default collection",
        tags := [], visibility := Visibility.PRIVATE, ownerId := userId,
        createdAt := 0, updatedAt := 0 }
    (newCollectionId, { db with collections := db.collections ++ [c] })

/-- `mediaService.getCollectionForCreate`: an explicit target collection must
exist and be writable (owner, or a membership row — accepted or not — with
role OWNER or COLLABORATOR); with no target the default collection is
resolved or created. -/
def getCollectionForCreate (db : DB) (userId : Nat) (collectionId : Option Nat)
    (newCollectionId : Nat) : Result (Nat × DB) :=
  match collectionId with
  | some cid =>
    match db.collections.find? (fun c => c.id == cid) with
    | none => .err ⟨"Collection not found", 404⟩
    | some c =>
      let isOwner := c.ownerId == userId
      let hasRole := (memberRolesAnyAcceptance db cid userId).any
        (fun r => r == CollectionRole.OWNER || r == CollectionRole.COLLABORATOR)
      if !isOwner && !hasRole then .err ⟨"Forbidden", 403⟩
      else .ok (c.id, db)
  | none => .ok (getOrCreateDefaultCollection db userId newCollectionId)

/-- Which step of the `$transaction` in `createMedia` fails, if any.  The
collection resolution happens before the transaction; only the media insert
and the link insert are inside it. -/
inductive TxFault where
  | none
  | mediaInsertFails
  | linkInsertFails
deriving DecidableEq

/-- `mediaService.createMedia`: resolve the target collection (possibly
creating the default collection — this write is outside the transaction),
then insert the media row and its `CollectionMedia` link inside one
transaction; a failure of either insert rolls back both and is surfaced as
one `AppError` 500.  The final store is returned alongside the outcome. -/
def createMedia (db : DB) (m : Media) (userId : Nat) (collectionId : Option Nat)
    (newCollectionId newLinkId : Nat) (fault : TxFault) : Result Media × DB :=
  match getCollectionForCreate db userId collectionId newCollectionId with
  | .err e => (.err e, db)
  | .ok (cid, db₁) =>
    match fault with
    | .none =>
      let link : CollectionMedia :=
        { id := newLinkId, collectionId := cid, mediaId := m.id, position := 0, addedAt := 0 }
      (.ok m,
        { db₁ with media := db₁.media ++ [m],
                   collectionMedia := db₁.collectionMedia ++ [link] })
    | _ => (.err ⟨"Failed to create media", 500⟩, db₁)

/-! ### Query parameters and filter clauses -/

/-- The `ListQuery` request parameters shared by both list endpoints.
`sort`/`order` are kept as raw strings as in the TypeScript type; the cursor
is a row id. -/
structure ListQuery where
  page : Option Nat
  pageSize : Option Nat
  type : Option String
  tag : Option String
  tags : Option String
  platform : Option String
  platforms : Option String
  q : Option String
  sort : Option String
  order : Option String
  cursor : Option Nat
deriving DecidableEq

/-- `query.pageSize || 20`. -/
def effPageSize (q : ListQuery) : Nat := jsOrNat q.pageSize 20

/-- `query.page || 1`. -/
def effPage (q : ListQuery) : Nat := jsOrNat q.page 1

/-- `query.sort || 'createdAt'`. -/
def effSort (q : ListQuery) : String := jsOrStr q.sort "createdAt"

/-- `query.order || 'desc'`. -/
def effOrder (q : ListQuery) : String := jsOrStr q.order "desc"

/-- The filter object built by `collectionService.buildWhereClause`: an
optional `tags hasSome` condition and an optional free-text condition. -/
structure CollectionWhere where
  tagsHasSome : Option (List String)
  qText : Option String
deriving DecidableEq

/-- `collectionService.buildWhereClause`. -/
def buildCollectionWhereClause (q : ListQuery) : CollectionWhere :=
  { tagsHasSome :=
      (let tagList := parseCommaSeparated q.tags q.tag
       if tagList.isEmpty then none else some tagList),
    qText := strPresent q.q }

/-- `Object.keys(filterWhere).length == 0` for the collection filter. -/
def CollectionWhere.isEmptyObj (w : CollectionWhere) : Bool :=
  w.tagsHasSome.isNone && w.qText.isNone

/-- The collection filter object evaluated on a row. -/
def evalCollectionFilter (w : CollectionWhere) (c : Collection) : Bool :=
  (match w.tagsHasSome with
   | none => true
   | some wanted => hasSomeOf c.tags wanted) &&
  (match w.qText with
   | none => true
   | some s => containsInsensitive c.name s || containsInsensitive c.description s)

/-- The effective `where` of `listCollections`: the caller filter ANDed with
the access clause when the filter object is non-empty, else the access
clause alone. -/
def collectionListWhere (db : DB) (q : ListQuery) (userId : Option Nat)
    (c : Collection) : Bool :=
  let w := buildCollectionWhereClause q
  if w.isEmptyObj then evalCollectionAccess db userId c
  else evalCollectionFilter w c && evalCollectionAccess db userId c

/-- The filter object built by `mediaService.buildWhereClause`. -/
structure MediaWhere where
  typeIs : Option String
  tagsHasSome : Option (List String)
  platformsHasSome : Option (List String)
  qText : Option String
deriving DecidableEq

/-- `mediaService.buildWhereClause`. -/
def buildMediaWhereClause (q : ListQuery) : MediaWhere :=
  { typeIs := strPresent q.type,
    tagsHasSome :=
      (let tagList := parseCommaSeparated q.tags q.tag
       if tagList.isEmpty then none else some tagList),
    platformsHasSome :=
      (let platformList := parseCommaSeparated q.platforms q.platform
       if platformList.isEmpty then none else some platformList),
    qText := strPresent q.q }

/-- `Object.keys(filterWhere).length == 0` for the media filter. -/
def MediaWhere.isEmptyObj (w : MediaWhere) : Bool :=
  w.typeIs.isNone && w.tagsHasSome.isNone && w.platformsHasSome.isNone && w.qText.isNone

/-- The media filter object evaluated on a row. -/
def evalMediaFilter (w : MediaWhere) (m : Media) : Bool :=
  (match w.typeIs with
   | none => true
   | some t => m.type == t) &&
  (match w.tagsHasSome with
   | none => true
   | some wanted => hasSomeOf m.tags wanted) &&
  (match w.platformsHasSome with
   | none => true
   | some wanted => hasSomeOf m.platforms wanted) &&
  (match w.qText with
   | none => true
   | some s => containsInsensitive m.title s || containsInsensitive m.description s)

/-- The effective `where` of `listMedia`. -/
def mediaListWhere (db : DB) (q : ListQuery) (userId : Option Nat) (m : Media) : Bool :=
  let w := buildMediaWhereClause q
  if w.isEmptyObj then evalMediaAccess db userId m
  else evalMediaFilter w m && evalMediaAccess db userId m

/-! ### Ordering -/

/-- `o ≠ gt`, turning a comparator outcome into a "may come first" test. -/
def ordLE (o : Ordering) : Bool := o != Ordering.gt

/-- Prisma `{ [field]: order }`: the field comparison, reversed for `desc`. -/
def applyOrder (order : String) (o : Ordering) : Ordering :=
  if order == "asc" then o else o.swap

/-- The collection sort field comparison (`createdAt`, `name` or
`updatedAt`; the schema defaults to `createdAt`). -/
def collectionFieldCmp (sort : String) (a b : Collection) : Ordering :=
  if sort == "name" then compare a.name b.name
  else if sort == "updatedAt" then compare a.updatedAt b.updatedAt
  else compare a.createdAt b.createdAt

/-- `orderBy: [{ [sort]: order }, { id: 'asc' }]` of `listCollections`: the
requested field with an always-ascending id tiebreak. -/
def collectionCmp (sort order : String) (a b : Collection) : Ordering :=
  (applyOrder order (collectionFieldCmp sort a b)).then (compare a.id b.id)

/-- The sort relation `listCollections` passes to the store. -/
def collectionOrderLE (sort order : String) (a b : Collection) : Bool :=
  ordLE (collectionCmp sort order a b)

/-- The media sort field comparison (`createdAt`, `title` or `releaseDate`). -/
def mediaFieldCmp (sort : String) (a b : Media) : Ordering :=
  if sort == "title" then compare a.title b.title
  else if sort == "releaseDate" then compare a.releaseDate b.releaseDate
  else compare a.createdAt b.createdAt

/-- `orderBy: { [sort]: order }` of `listMedia`: the requested field only —
no id tiebreak, unlike the collection listing. -/
def mediaOrderLE (sort order : String) (a b : Media) : Bool :=
  ordLE (applyOrder order (mediaFieldCmp sort a b))

/-- A stable sort by a boolean "may come first" relation, modelling the
store's `ORDER BY`: rows with equal keys keep their table order. -/
def sortByLE {α : Type} (le : α → α → Bool) (l : List α) : List α :=
  List.insertionSort (fun a b => le a b = true) l

/-! ### Pagination engine -/

/-- The `links` object of a list response. -/
structure PaginationLinks where
  self : String
  next : Option String
  prev : Option String
deriving DecidableEq

/-- `URLSearchParams.toString()` over insertion-ordered pairs
(percent-encoding is elided; the properties proved never depend on it). -/
def renderQuery (ps : List (String × String)) : String :=
  String.intercalate "&" (ps.map (fun p => p.1 ++ "=" ++ p.2))

/-- The active filter parameters re-serialized by the collection link
builders (`tag`, `tags`, `q`, `sort`, `order`, each only when truthy). -/
def collectionBaseParams (q : ListQuery) : List (String × String) :=
  (match strPresent q.tag with | some v => [("tag", v)] | none => []) ++
  (match strPresent q.tags with | some v => [("tags", v)] | none => []) ++
  (match strPresent q.q with | some v => [("q", v)] | none => []) ++
  (match strPresent q.sort with | some v => [("sort", v)] | none => []) ++
  (match strPresent q.order with | some v => [("order", v)] | none => [])

/-- The active filter parameters re-serialized by the media link builders. -/
def mediaBaseParams (q : ListQuery) : List (String × String) :=
  (match strPresent q.type with | some v => [("type", v)] | none => []) ++
  (match strPresent q.tag with | some v => [("tag", v)] | none => []) ++
  (match strPresent q.tags with | some v => [("tags", v)] | none => []) ++
  (match strPresent q.platform with | some v => [("platform", v)] | none => []) ++
  (match strPresent q.platforms with | some v => [("platforms", v)] | none => []) ++
  (match strPresent q.q with | some v => [("q", v)] | none => []) ++
  (match strPresent q.sort with | some v => [("sort", v)] | none => []) ++
  (match strPresent q.order with | some v => [("order", v)] | none => [])

/-- `buildPaginationLinks` (offset mode): `next` only below the last page,
`prev` only above page 1. -/
def buildPaginationLinks (baseUrl : String) (params : List (String × String))
    (page pageSize pages : Nat) : PaginationLinks :=
  let buildLink := fun (p : Nat) =>
    baseUrl ++ "?" ++ renderQuery (params ++ [("page", toString p), ("pageSize", toString pageSize)])
  { self := buildLink page,
    next := if page < pages then some (buildLink (page + 1)) else none,
    prev := if 1 < page then some (buildLink (page - 1)) else none }

/-- `buildCursorPaginationLinks`: `self` echoes the request cursor, `next`
carries the new cursor when there is one, `prev` is never produced. -/
def buildCursorPaginationLinks (baseUrl : String) (params : List (String × String))
    (queryCursor : Option Nat) (pageSize : Nat) (nextCursor : Option Nat) : PaginationLinks :=
  let base := params ++ [("pageSize", toString pageSize)]
  { self := baseUrl ++ "?" ++ renderQuery
      (base ++ (match queryCursor with | some c => [("cursor", toString c)] | none => [])),
    next := match nextCursor with
      | none => none
      | some c => some (baseUrl ++ "?" ++ renderQuery (base ++ [("cursor", toString c)])),
    prev := none }

/-- Prisma `cursor: { id: c }, skip: 1`: the rows strictly after the cursor
row in the sorted result. -/
def afterCursor {α : Type} (rowId : α → Nat) (l : List α) (c : Nat) : List α :=
  (l.dropWhile (fun r => rowId r != c)).drop 1

/-- `Math.ceil(total / pageSize)` on naturals (exact for `pageSize > 0`). -/
def ceilDiv (total pageSize : Nat) : Nat := (total + pageSize - 1) / pageSize

/-- The list response envelope `PaginatedData`. -/
structure PaginatedData (α : Type) where
  data : List α
  page : Nat
  pageSize : Nat
  total : Nat
  pages : Nat
  links : PaginationLinks
  cursor : Option Nat
deriving DecidableEq

/-! ### The two listing operations -/

/-- The rows matched by the effective `where` of `listCollections`. -/
def collectionFilteredRows (db : DB) (q : ListQuery) (userId : Option Nat) : List Collection :=
  db.collections.filter (collectionListWhere db q userId)

/-- The matched rows in store order `[{ [sort]: order }, { id: 'asc' }]`. -/
def collectionSortedRows (db : DB) (q : ListQuery) (userId : Option Nat) : List Collection :=
  sortByLE (collectionOrderLE (effSort q) (effOrder q)) (collectionFilteredRows db q userId)

/-- The `take: pageSize + 1` fetch after the cursor in `listCollections`. -/
def collectionCursorRaw (db : DB) (q : ListQuery) (userId : Option Nat) (c : Nat) :
    List Collection :=
  (afterCursor (·.id) (collectionSortedRows db q userId) c).take (effPageSize q + 1)

/-- `collectionService.listCollections`: cursor mode when a cursor is present
(`total`/`pages` reported 0), offset mode otherwise. -/
def listCollections (db : DB) (q : ListQuery) (userId : Option Nat) :
    PaginatedData Collection :=
  let pageSize := effPageSize q
  match q.cursor with
  | some c =>
    let data := collectionCursorRaw db q userId c
    let hasMore := pageSize < data.length
    let items := if hasMore then data.take pageSize else data
    let nextCursor := if hasMore then items.getLast?.map (·.id) else none
    { data := items, page := 1, pageSize := pageSize, total := 0, pages := 0,
      links := buildCursorPaginationLinks "/api/collections" (collectionBaseParams q)
        q.cursor pageSize nextCursor,
      cursor := nextCursor }
  | none =>
    let page := effPage q
    let skip := (page - 1) * pageSize
    let sorted := collectionSortedRows db q userId
    let data := (sorted.drop skip).take pageSize
    let total := (collectionFilteredRows db q userId).length
    let pages := ceilDiv total pageSize
    { data := data, page := page, pageSize := pageSize, total := total, pages := pages,
      links := buildPaginationLinks "/api/collections" (collectionBaseParams q)
        page pageSize pages,
      cursor := data.getLast?.map (·.id) }

/-- The rows matched by the effective `where` of `listMedia`. -/
def mediaFilteredRows (db : DB) (q : ListQuery) (userId : Option Nat) : List Media :=
  db.media.filter (mediaListWhere db q userId)

/-- The matched media rows in store order `{ [sort]: order }` (no id
tiebreak; rows with equal keys keep their table order). -/
def mediaSortedRows (db : DB) (q : ListQuery) (userId : Option Nat) : List Media :=
  sortByLE (mediaOrderLE (effSort q) (effOrder q)) (mediaFilteredRows db q userId)

/-- The `take: pageSize + 1` fetch after the cursor in `listMedia`. -/
def mediaCursorRaw (db : DB) (q : ListQuery) (userId : Option Nat) (c : Nat) : List Media :=
  (afterCursor (·.id) (mediaSortedRows db q userId) c).take (effPageSize q + 1)

/-- `mediaService.listMedia`: same dual-mode engine as `listCollections`,
over the media filter, media access clause and tiebreak-free ordering. -/
def listMedia (db : DB) (q : ListQuery) (userId : Option Nat) : PaginatedData Media :=
  let pageSize := effPageSize q
  match q.cursor with
  | some c =>
    let data := mediaCursorRaw db q userId c
    let hasMore := pageSize < data.length
    let items := if hasMore then data.take pageSize else data
    let nextCursor := if hasMore then items.getLast?.map (·.id) else none
    { data := items, page := 1, pageSize := pageSize, total := 0, pages := 0,
      links := buildCursorPaginationLinks "/api/media" (mediaBaseParams q)
        q.cursor pageSize nextCursor,
      cursor := nextCursor }
  | none =>
    let page := effPage q
    let skip := (page - 1) * pageSize
    let sorted := mediaSortedRows db q userId
    let data := (sorted.drop skip).take pageSize
    let total := (mediaFilteredRows db q userId).length
    let pages := ceilDiv total pageSize
    { data := data, page := page, pageSize := pageSize, total := total, pages := pages,
      links := buildPaginationLinks "/api/media" (mediaBaseParams q) page pageSize pages,
      cursor := data.getLast?.map (·.id) }

/-! ## Theorems -/

/-- `find?` over a map that rewrites exactly the rows matched by `p`, where
the rewrite preserves `p`: the first match is the rewritten original first
match. -/
theorem find?_map_matching {α : Type} (p : α → Bool) (g : α → α)
    (hg : ∀ a, p a = true → p (g a) = true) :
    ∀ l : List α, (l.map (fun a => if p a then g a else a)).find? p = (l.find? p).map g := by
  intro l
  induction l with
  | nil => rfl
  | cons a t ih =>
    by_cases hpa : p a = true
    · simp [hpa, List.find?_cons_of_pos, hg a hpa]
    · have hpa' : p a = false := by
        cases h : p a
        · rfl
        · exact absurd h hpa
      simp [hpa', List.find?_cons_of_neg, ih]

/-- Claim C2: `requireCollectionRole` implements the evaluator algorithm in
order.  A collection id with no row yields `NotFound` 404 — never
`Forbidden` — irrespective of any membership state, so existence is decided
before any role check; with the collection present, the owner passes
whenever `OWNER` is in the requested set; otherwise a membership row for
the caller with `accepted = true` and an allowed role passes; otherwise the
check fails with `Forbidden` 403. -/
theorem requireCollectionRole_follows_evaluator
    (db : DB) (collectionId userId : Nat) (allowedRoles : List CollectionRole) :
    (db.collections.find? (fun c => c.id == collectionId) = none →
      requireCollectionRole db collectionId userId allowedRoles =
        .err ⟨"Collection not found", 404⟩) ∧
    (∀ c, db.collections.find? (fun c => c.id == collectionId) = some c →
      ((c.ownerId = userId ∧ CollectionRole.OWNER ∈ allowedRoles) →
        requireCollectionRole db collectionId userId allowedRoles = .ok ()) ∧
      (¬(c.ownerId = userId ∧ CollectionRole.OWNER ∈ allowedRoles) →
        (((∃ m ∈ db.collectionUsers, m.collectionId = collectionId ∧ m.userId = userId ∧
              m.accepted = true ∧ m.role ∈ allowedRoles) →
            requireCollectionRole db collectionId userId allowedRoles = .ok ()) ∧
         (¬(∃ m ∈ db.collectionUsers, m.collectionId = collectionId ∧ m.userId = userId ∧
              m.accepted = true ∧ m.role ∈ allowedRoles) →
            requireCollectionRole db collectionId userId allowedRoles =
              .err ⟨"Forbidden", 403⟩)))) := by
  refine ⟨fun hnone => ?_, fun c hc => ?_⟩
  · simp [requireCollectionRole, hnone]
  · have hmem : (acceptedMemberRoles db collectionId userId).any
        (fun role => allowedRoles.contains role) = true ↔
        (∃ m ∈ db.collectionUsers, m.collectionId = collectionId ∧ m.userId = userId ∧
          m.accepted = true ∧ m.role ∈ allowedRoles) := by
      constructor
      · intro h
        obtain ⟨r, hr, hrin⟩ := List.any_eq_true.1 h
        obtain ⟨m, hmf, hrole⟩ := List.mem_map.1 hr
        obtain ⟨hmemL, hcond⟩ := List.mem_filter.1 hmf
        simp only [Bool.and_eq_true, beq_iff_eq] at hcond
        refine ⟨m, hmemL, hcond.1.1, hcond.1.2, hcond.2, ?_⟩
        rw [hrole]
        simpa using hrin
      · rintro ⟨m, hm, h1, h2, h3, h4⟩
        apply List.any_eq_true.2
        refine ⟨m.role, List.mem_map.2 ⟨m, List.mem_filter.2 ⟨hm, ?_⟩, rfl⟩, ?_⟩
        · simp [h1, h2, h3]
        · simpa using h4
    have hrun : requireCollectionRole db collectionId userId allowedRoles =
        (if (c.ownerId == userId && allowedRoles.contains CollectionRole.OWNER) = true
         then .ok ()
         else if (acceptedMemberRoles db collectionId userId).any
            (fun role => allowedRoles.contains role) = true then .ok ()
         else .err ⟨"Forbidden", 403⟩) := by
      rw [requireCollectionRole, hc]
    refine ⟨fun hown => ?_, fun hnotown => ⟨fun hrole => ?_, fun hnorole => ?_⟩⟩
    · rw [hrun, if_pos (by simp [hown.1, hown.2])]
    · rw [hrun]
      by_cases hO : (c.ownerId == userId && allowedRoles.contains CollectionRole.OWNER) = true
      · rw [if_pos hO]
      · rw [if_neg hO, if_pos (hmem.2 hrole)]
    · rw [hrun]
      have hO : ¬(c.ownerId == userId && allowedRoles.contains CollectionRole.OWNER) = true := by
        intro hcon
        simp only [Bool.and_eq_true, beq_iff_eq] at hcon
        exact hnotown ⟨hcon.1, by simpa using hcon.2⟩
      rw [if_neg hO, if_neg (fun h => hnorole (hmem.1 h))]

/-- A concrete store for the C2 witness: one collection, an accepted READER
membership for user 20. -/
def c2Db : DB :=
  ⟨[10, 20], [⟨1, "W", "", [], Visibility.PRIVATE, 10, 0, 0⟩], [], [],
    [⟨100, 1, 20, CollectionRole.READER, true, 0⟩]⟩

/-- Witness for C2 at a concrete store: the accepted READER membership
passes a READER-level check. -/
theorem requireCollectionRole_follows_evaluator_witness :
    requireCollectionRole c2Db 1 20 [CollectionRole.OWNER, CollectionRole.READER] = .ok () :=
  (((requireCollectionRole_follows_evaluator c2Db 1 20
      [CollectionRole.OWNER, CollectionRole.READER]).2
    ⟨1, "W", "", [], Visibility.PRIVATE, 10, 0, 0⟩ (by decide)).2
    (by decide)).1
    ⟨⟨100, 1, 20, CollectionRole.READER, true, 0⟩, by decide, by decide, by decide,
      by decide, by decide⟩

/-- Claim C5: `respondToInvitation` signals `NotFound` when no membership
row exists for the pair, `Conflict` (400) when the row is already accepted,
persists `accepted = true` and returns the updated row on acceptance, and
deletes the row on rejection so that the pair lookup is empty again and a
subsequent invite by the owner succeeds. -/
theorem respondToInvitation_lifecycle (db : DB) (collectionId userId : Nat) (accept : Bool) :
    (findMembership db collectionId userId = none →
      respondToInvitation db collectionId userId accept =
        .err ⟨"Invitation not found", 404⟩) ∧
    (∀ inv, findMembership db collectionId userId = some inv →
      (inv.accepted = true →
        respondToInvitation db collectionId userId accept =
          .err ⟨"Invitation already accepted", 400⟩) ∧
      (inv.accepted = false →
        respondToInvitation db collectionId userId true =
          .ok (some { inv with accepted := true },
               acceptMembership db collectionId userId) ∧
        findMembership (acceptMembership db collectionId userId) collectionId userId =
          some { inv with accepted := true }) ∧
      (inv.accepted = false →
        respondToInvitation db collectionId userId false =
          .ok (none, removeMembership db collectionId userId) ∧
        findMembership (removeMembership db collectionId userId) collectionId userId = none ∧
        (∀ actorId role newId invitedAt,
          requireCollectionRole (removeMembership db collectionId userId) collectionId
            actorId [CollectionRole.OWNER] = .ok () →
          userId ∈ db.users →
          ∃ row db₂,
            addMemberToCollection (removeMembership db collectionId userId) collectionId
              userId role actorId newId invitedAt = .ok (row, db₂)))) := by
  refine ⟨fun hnone => ?_, fun inv hinv => ⟨fun hacc => ?_, fun hpend => ⟨?_, ?_⟩, fun hpend => ?_⟩⟩
  · simp [respondToInvitation, hnone]
  · simp [respondToInvitation, hinv, hacc]
  · simp [respondToInvitation, hinv, hpend]
  · rw [acceptMembership, findMembership]
    have := find?_map_matching
      (fun m : CollectionUser => m.collectionId == collectionId && m.userId == userId)
      (fun m => { m with accepted := true })
      (fun a ha => by simpa using ha) db.collectionUsers
    simp only at this
    rw [this]
    rw [findMembership] at hinv
    rw [hinv]
    rfl
  · refine ⟨by simp [respondToInvitation, hinv, hpend], ?_, ?_⟩
    · rw [removeMembership, findMembership]
      rw [List.find?_eq_none]
      intro m hm
      have := (List.mem_filter.1 hm).2
      simp only [Bool.not_eq_eq_eq_not, Bool.not_true] at this
      simp [this]
    · intro actorId role newId invitedAt hrole huser
      rw [addMemberToCollection, hrole]
      have husers : ((removeMembership db collectionId userId).users.contains userId) = true := by
        simpa [removeMembership] using huser
      rw [husers]
      have hfind : findMembership (removeMembership db collectionId userId)
          collectionId userId = none := by
        rw [removeMembership, findMembership, List.find?_eq_none]
        intro m hm
        have := (List.mem_filter.1 hm).2
        simp only [Bool.not_eq_eq_eq_not, Bool.not_true] at this
        simp [this]
      rw [hfind]
      exact ⟨_, _, rfl⟩

/-- A concrete store for the C5 witness: a pending READER invitation of
user 20 on collection 1. -/
def c5Db : DB :=
  ⟨[10, 20], [⟨1, "I", "", [], Visibility.PRIVATE, 10, 0, 0⟩], [], [],
    [⟨100, 1, 20, CollectionRole.READER, false, 3⟩]⟩

/-- Witness for C5 at a concrete store: rejecting the pending invitation
deletes the row and a re-invite by the owner then succeeds. -/
theorem respondToInvitation_lifecycle_witness :
    respondToInvitation c5Db 1 20 false = .ok (none, removeMembership c5Db 1 20) ∧
    findMembership (removeMembership c5Db 1 20) 1 20 = none ∧
    (∃ row db₂, addMemberToCollection (removeMembership c5Db 1 20) 1 20
      CollectionRole.COLLABORATOR 10 101 4 = .ok (row, db₂)) := by
  have h := (((respondToInvitation_lifecycle c5Db 1 20 false).2
    ⟨100, 1, 20, CollectionRole.READER, false, 3⟩ (by decide)).2.2) (by decide)
  exact ⟨h.1, h.2.1, h.2.2 10 CollectionRole.COLLABORATOR 101 4 (by decide) (by decide)⟩

/-- Claim C6: `addMemberToCollection` succeeds only when no membership row
exists for the pair (the created row is unaccepted and simply appended);
when the owner invites a user for whom any row already exists — accepted or
not — the call fails with `Conflict` (400, "User already a member"); with
no existing row the owner's invite of an existing user succeeds. -/
theorem addMemberToCollection_conflict (db : DB) (collectionId memberUserId : Nat)
    (role : CollectionRole) (userId newId invitedAt : Nat) :
    (∀ row db₂,
      addMemberToCollection db collectionId memberUserId role userId newId invitedAt =
        .ok (row, db₂) →
      findMembership db collectionId memberUserId = none ∧
      row.accepted = false ∧
      db₂ = { db with collectionUsers := db.collectionUsers ++ [row] }) ∧
    (requireCollectionRole db collectionId userId [CollectionRole.OWNER] = .ok () →
      memberUserId ∈ db.users →
      ∀ existing, findMembership db collectionId memberUserId = some existing →
        addMemberToCollection db collectionId memberUserId role userId newId invitedAt =
          .err ⟨"User already a member", 400⟩) ∧
    (requireCollectionRole db collectionId userId [CollectionRole.OWNER] = .ok () →
      memberUserId ∈ db.users →
      findMembership db collectionId memberUserId = none →
      ∃ row db₂,
        addMemberToCollection db collectionId memberUserId role userId newId invitedAt =
          .ok (row, db₂)) := by
  refine ⟨?_, fun hrole huser existing hex => ?_, fun hrole huser hnone => ?_⟩
  · intro row db₂ hok
    rw [addMemberToCollection] at hok
    cases hr : requireCollectionRole db collectionId userId [CollectionRole.OWNER] with
    | err e => rw [hr] at hok; exact absurd hok (by simp)
    | ok u =>
      rw [hr] at hok
      by_cases hc : (db.users.contains memberUserId) = true
      · rw [hc] at hok
        simp only [Bool.not_true, Bool.false_eq_true, if_false] at hok
        cases hf : findMembership db collectionId memberUserId with
        | some m => rw [hf] at hok; exact absurd hok (by simp)
        | none =>
          rw [hf] at hok
          simp only [Result.ok.injEq, Prod.mk.injEq] at hok
          refine ⟨rfl, ?_, ?_⟩
          · rw [← hok.1]
          · rw [← hok.1, ← hok.2]
      · have hc' : (db.users.contains memberUserId) = false := by
          cases h : db.users.contains memberUserId
          · rfl
          · exact absurd h hc
        rw [hc'] at hok
        exact absurd hok (by simp)
  · rw [addMemberToCollection, hrole]
    have hc : (db.users.contains memberUserId) = true := by simpa using huser
    rw [hc, hex]
    rfl
  · rw [addMemberToCollection, hrole]
    have hc : (db.users.contains memberUserId) = true := by simpa using huser
    rw [hc, hnone]
    exact ⟨_, _, rfl⟩

/-- A concrete store for the C6 witness: user 20 already holds an accepted
membership row on collection 1. -/
def c6Db : DB :=
  ⟨[10, 20], [⟨1, "V", "", [], Visibility.PRIVATE, 10, 0, 0⟩], [], [],
    [⟨100, 1, 20, CollectionRole.READER, true, 0⟩]⟩

/-- Witness for C6 at a concrete store: re-inviting a user whose row is
already accepted yields the Conflict error. -/
theorem addMemberToCollection_conflict_witness :
    addMemberToCollection c6Db 1 20 CollectionRole.COLLABORATOR 10 101 4 =
      .err ⟨"User already a member", 400⟩ :=
  (addMemberToCollection_conflict c6Db 1 20 CollectionRole.COLLABORATOR 10 101 4).2.1
    (by decide) (by decide) ⟨100, 1, 20, CollectionRole.READER, true, 0⟩ (by decide)

/-- The C1 failing input: a PRIVATE collection 1 owned by user 10, an
UNACCEPTED COLLABORATOR membership row for user 20, and media 5 linked to
collection 1. -/
def c1Col : Collection := ⟨1, "Shared", "", [], Visibility.PRIVATE, 10, 0, 0⟩

/-- The unaccepted membership row of the C1 failing input. -/
def c1Mem : CollectionUser := ⟨100, 1, 20, CollectionRole.COLLABORATOR, false, 0⟩

/-- The media row of the C1 failing input. -/
def c1Med : Media := ⟨5, "Film", "", [], [], "MOVIE", 0, 0⟩

/-- The store of the C1 failing input. -/
def c1Db : DB := ⟨[10, 20], [c1Col], [c1Med], [⟨200, 1, 5, 0, 0⟩], [c1Mem]⟩

/-- Claim C1 versus the code, at the failing input: the collection-side
checks do deny the unaccepted member (every capability including READER is
refused and the collection is invisible to user 20), but the media-side
checks — which the claim also covers — allow the same unaccepted member to
see the media through the collection and to pass the mutation role check,
because `mediaService.buildAccessWhere` and `requireMediaRole` select
membership rows without the `accepted: true` filter. -/
theorem unaccepted_member_media_checks_not_denied :
    requireCollectionRole c1Db 1 20
      [CollectionRole.OWNER, CollectionRole.COLLABORATOR, CollectionRole.READER] =
      .err ⟨"Forbidden", 403⟩ ∧
    evalCollectionAccess c1Db (some 20) c1Col = false ∧
    collectionGetById c1Db 1 (some 20) = none ∧
    evalMediaAccess c1Db (some 20) c1Med = true ∧
    mediaGetById c1Db 5 (some 20) = some c1Med ∧
    requireMediaRole c1Db 5 20 [CollectionRole.OWNER, CollectionRole.COLLABORATOR] =
      .ok () := by
  decide

/-- `getCollectionForCreate` never touches the media or link tables: only
the collection table can change (by the default-collection creation). -/
theorem getCollectionForCreate_preserves_media (db : DB) (userId : Nat)
    (collectionId : Option Nat) (newCollectionId : Nat) :
    ∀ cid db₁, getCollectionForCreate db userId collectionId newCollectionId = .ok (cid, db₁) →
      db₁.media = db.media ∧ db₁.collectionMedia = db.collectionMedia := by
  intro cid db₁ h
  rw [getCollectionForCreate.eq_def] at h
  cases collectionId with
  | some c =>
    simp only at h
    cases hf : db.collections.find? (fun x => x.id == c) with
    | none => rw [hf] at h; exact absurd h (by simp)
    | some col =>
      rw [hf] at h
      simp only at h
      by_cases hcond : (!(col.ownerId == userId) &&
          !((memberRolesAnyAcceptance db c userId).any
            (fun r => r == CollectionRole.OWNER || r == CollectionRole.COLLABORATOR))) = true
      · rw [if_pos hcond] at h; exact absurd h (by simp)
      · rw [if_neg hcond] at h
        simp only [Result.ok.injEq, Prod.mk.injEq] at h
        rw [← h.2]
        exact ⟨rfl, rfl⟩
  | none =>
    simp only at h
    rw [getOrCreateDefaultCollection.eq_def] at h
    simp only [Result.ok.injEq] at h
    cases hf : db.collections.find? (fun x => x.ownerId == userId && x.name == "Default") with
    | some col =>
      rw [hf] at h
      simp only [Prod.mk.injEq] at h
      rw [← h.2]
      exact ⟨rfl, rfl⟩
    | none =>
      rw [hf] at h
      simp only [Prod.mk.injEq] at h
      rw [← h.2]
      exact ⟨rfl, rfl⟩

/-- The C9 input: user 1 with an empty store (no Default collection yet). -/
def c9CexDb : DB := ⟨[1], [], [], [], []⟩

/-- The media row user 1 tries to create in the C9 scenario. -/
def c9CexMedia : Media := ⟨50, "New", "", [], [], "MOVIE", 0, 0⟩

/-- Counterexample to claim C9 as stated: with no Default collection in the
store, a failure of the link insert does NOT roll the whole operation back —
the surfaced error is the single 500, but the store differs from the
initial one because the default-collection get-or-create ran (and
persisted) before the transaction. -/
theorem createMedia_rollback_not_whole_operation :
    (createMedia c9CexDb c9CexMedia 1 none 60 61 TxFault.linkInsertFails).1 =
      .err ⟨"Failed to create media", 500⟩ ∧
    (createMedia c9CexDb c9CexMedia 1 none 60 61 TxFault.linkInsertFails).2 ≠ c9CexDb := by
  decide

/-- Claim C9 (amended): the media insert and its first `CollectionMedia`
link are atomic — on any transaction fault neither table changes and one
error is surfaced; on success the media row and its link both exist; in
every outcome the new media row exists iff its link does, so no media is
ever left orphaned from its intended collection.  (The default-collection
get-or-create runs before the transaction and is not rolled back.) -/
theorem createMedia_media_link_atomic (db : DB) (m : Media) (userId : Nat)
    (collectionId : Option Nat) (newCollectionId newLinkId : Nat) (fault : TxFault)
    (hfresh : ∀ x ∈ db.media, x.id ≠ m.id) :
    (∀ e, (createMedia db m userId collectionId newCollectionId newLinkId fault).1 = .err e →
      (createMedia db m userId collectionId newCollectionId newLinkId fault).2.media =
        db.media ∧
      (createMedia db m userId collectionId newCollectionId newLinkId fault).2.collectionMedia =
        db.collectionMedia) ∧
    (∀ mm, (createMedia db m userId collectionId newCollectionId newLinkId fault).1 = .ok mm →
      mm = m ∧
      m ∈ (createMedia db m userId collectionId newCollectionId newLinkId fault).2.media ∧
      ∃ l ∈ (createMedia db m userId collectionId newCollectionId newLinkId fault).2.collectionMedia,
        l.mediaId = m.id) ∧
    ((∃ x ∈ (createMedia db m userId collectionId newCollectionId newLinkId fault).2.media,
        x.id = m.id) →
      (∃ l ∈ (createMedia db m userId collectionId newCollectionId newLinkId fault).2.collectionMedia,
        l.mediaId = m.id)) := by
  rw [createMedia]
  cases hres : getCollectionForCreate db userId collectionId newCollectionId with
  | err e =>
    refine ⟨fun e' h => ⟨rfl, rfl⟩, fun mm h => absurd h (by simp), fun hx => ?_⟩
    obtain ⟨x, hxmem, hxid⟩ := hx
    exact absurd hxid (hfresh x hxmem)
  | ok p =>
    obtain ⟨cid, db₁⟩ := p
    have hpres := getCollectionForCreate_preserves_media db userId collectionId
      newCollectionId cid db₁ hres
    cases fault with
    | none =>
      refine ⟨fun e h => absurd h (by simp), fun mm h => ?_, fun hx => ?_⟩
      · simp only [Result.ok.injEq] at h
        refine ⟨h.symm, ?_, ?_⟩
        · simp
        · exact ⟨⟨newLinkId, cid, m.id, 0, 0⟩, by simp, rfl⟩
      · exact ⟨⟨newLinkId, cid, m.id, 0, 0⟩, by simp, rfl⟩
    | mediaInsertFails =>
      refine ⟨fun e h => ⟨hpres.1, hpres.2⟩, fun mm h => absurd h (by simp), fun hx => ?_⟩
      obtain ⟨x, hxmem, hxid⟩ := hx
      rw [hpres.1] at hxmem
      exact absurd hxid (hfresh x hxmem)
    | linkInsertFails =>
      refine ⟨fun e h => ⟨hpres.1, hpres.2⟩, fun mm h => absurd h (by simp), fun hx => ?_⟩
      obtain ⟨x, hxmem, hxid⟩ := hx
      rw [hpres.1] at hxmem
      exact absurd hxid (hfresh x hxmem)

/-- Witness for the amended C9 at a concrete store: a successful creation
yields the media row and its link; a faulted transaction leaves the media
and link tables untouched. -/
theorem createMedia_media_link_atomic_witness :
    c9CexMedia ∈ (createMedia c9CexDb c9CexMedia 1 none 60 61 TxFault.none).2.media ∧
    ∃ l ∈ (createMedia c9CexDb c9CexMedia 1 none 60 61 TxFault.none).2.collectionMedia,
      l.mediaId = c9CexMedia.id := by
  have h := ((createMedia_media_link_atomic c9CexDb c9CexMedia 1 none 60 61 TxFault.none
    (by decide)).2.1) c9CexMedia (by decide)
  exact ⟨h.2.1, h.2.2⟩

/-- Claim C10: `updateById` on media authorizes by aggregating over every
collection containing the media: it succeeds exactly when the caller owns
one containing collection or holds a membership row — accepted or not —
with role OWNER or COLLABORATOR on one of them; a caller matching neither
condition is refused with `Forbidden` 403. -/
theorem mediaUpdate_aggregates_over_collections (db : DB) (mediaId userId : Nat)
    (f : Media → Media) (m : Media)
    (hm : db.media.find? (fun x => x.id == mediaId) = some m) :
    (((∃ c ∈ mediaContainingCollections db mediaId, c.ownerId = userId) ∨
      (∃ c ∈ mediaContainingCollections db mediaId, ∃ mem ∈ db.collectionUsers,
        mem.collectionId = c.id ∧ mem.userId = userId ∧
        (mem.role = CollectionRole.OWNER ∨ mem.role = CollectionRole.COLLABORATOR))) →
      (mediaUpdateById db mediaId f userId).1 = .ok (some (f m))) ∧
    (¬((∃ c ∈ mediaContainingCollections db mediaId, c.ownerId = userId) ∨
      (∃ c ∈ mediaContainingCollections db mediaId, ∃ mem ∈ db.collectionUsers,
        mem.collectionId = c.id ∧ mem.userId = userId ∧
        (mem.role = CollectionRole.OWNER ∨ mem.role = CollectionRole.COLLABORATOR))) →
      (mediaUpdateById db mediaId f userId).1 = .err ⟨"Forbidden", 403⟩) := by
  have hA : ((mediaContainingCollections db mediaId).any
      (fun c => c.ownerId == userId) = true) ↔
      (∃ c ∈ mediaContainingCollections db mediaId, c.ownerId = userId) := by
    simp [List.any_eq_true]
  have hB : (((mediaContainingCollections db mediaId).flatMap
      (fun c => memberRolesAnyAcceptance db c.id userId)).any
      (fun role => [CollectionRole.OWNER, CollectionRole.COLLABORATOR].contains role) = true) ↔
      (∃ c ∈ mediaContainingCollections db mediaId, ∃ mem ∈ db.collectionUsers,
        mem.collectionId = c.id ∧ mem.userId = userId ∧
        (mem.role = CollectionRole.OWNER ∨ mem.role = CollectionRole.COLLABORATOR)) := by
    constructor
    · intro h
      obtain ⟨r, hr, hrin⟩ := List.any_eq_true.1 h
      obtain ⟨c, hc, hrc⟩ := List.mem_flatMap.1 hr
      rw [memberRolesAnyAcceptance] at hrc
      obtain ⟨mem, hmf, hrole⟩ := List.mem_map.1 hrc
      obtain ⟨hmemL, hcond⟩ := List.mem_filter.1 hmf
      simp only [Bool.and_eq_true, beq_iff_eq] at hcond
      refine ⟨c, hc, mem, hmemL, hcond.1, hcond.2, ?_⟩
      rw [hrole]
      revert hrin
      simp only [List.contains_eq_any_beq, List.any_eq_true]
      rintro ⟨x, hx, hxe⟩
      simp only [List.mem_cons, List.not_mem_nil, or_false] at hx
      have : r = x := by simpa using hxe
      rcases hx with h1 | h1
      · left; rw [this, h1]
      · right; rw [this, h1]
    · rintro ⟨c, hc, mem, hmemL, h1, h2, h3⟩
      apply List.any_eq_true.2
      refine ⟨mem.role, List.mem_flatMap.2 ⟨c, hc, ?_⟩, ?_⟩
      · rw [memberRolesAnyAcceptance]
        exact List.mem_map.2 ⟨mem, List.mem_filter.2 ⟨hmemL, by simp [h1, h2]⟩, rfl⟩
      · rcases h3 with h3 | h3 <;> simp [h3]
  have hrun : requireMediaRole db mediaId userId
      [CollectionRole.OWNER, CollectionRole.COLLABORATOR] =
      (if (mediaContainingCollections db mediaId).any
          (fun c => c.ownerId == userId) = true then .ok ()
       else if ((mediaContainingCollections db mediaId).flatMap
          (fun c => memberRolesAnyAcceptance db c.id userId)).any
          (fun role =>
            [CollectionRole.OWNER, CollectionRole.COLLABORATOR].contains role) = true
       then .ok ()
       else .err ⟨"Forbidden", 403⟩) := by
    rw [requireMediaRole, hm]
    simp only [List.contains_cons, Bool.and_true, beq_self_eq_true, Bool.true_or]
  refine ⟨fun hauth => ?_, fun hnauth => ?_⟩
  · have hok : requireMediaRole db mediaId userId
        [CollectionRole.OWNER, CollectionRole.COLLABORATOR] = .ok () := by
      rw [hrun]
      by_cases h1 : (mediaContainingCollections db mediaId).any
          (fun c => c.ownerId == userId) = true
      · rw [if_pos h1]
      · rw [if_neg h1]
        have h2 : (∃ c ∈ mediaContainingCollections db mediaId, ∃ mem ∈ db.collectionUsers,
            mem.collectionId = c.id ∧ mem.userId = userId ∧
            (mem.role = CollectionRole.OWNER ∨ mem.role = CollectionRole.COLLABORATOR)) := by
          rcases hauth with h | h
          · exact absurd (hA.2 h) h1
          · exact h
        rw [if_pos (hB.2 h2)]
    rw [mediaUpdateById, hok, hm]
  · have herr : requireMediaRole db mediaId userId
        [CollectionRole.OWNER, CollectionRole.COLLABORATOR] = .err ⟨"Forbidden", 403⟩ := by
      rw [hrun]
      rw [if_neg (fun h => hnauth (Or.inl (hA.1 h)))]
      rw [if_neg (fun h => hnauth (Or.inr (hB.1 h)))]
    rw [mediaUpdateById, herr]

/-- A concrete store for the C10 witness: media 5 is in two collections;
the caller 20 only holds an unaccepted COLLABORATOR row on one of them,
which the media-side check counts. -/
def c10Db : DB :=
  ⟨[10, 11, 20],
    [⟨1, "A", "", [], Visibility.PRIVATE, 10, 0, 0⟩,
     ⟨2, "B", "", [], Visibility.PRIVATE, 11, 0, 0⟩],
    [⟨5, "Film", "", [], [], "MOVIE", 0, 0⟩],
    [⟨200, 1, 5, 0, 0⟩, ⟨201, 2, 5, 0, 0⟩],
    [⟨100, 2, 20, CollectionRole.COLLABORATOR, false, 0⟩]⟩

/-- Witness for C10 at a concrete store: the unaccepted collaborator on one
containing collection may update the shared media. -/
theorem mediaUpdate_aggregates_over_collections_witness :
    (mediaUpdateById c10Db 5 (fun x => { x with title := "New" }) 20).1 =
      .ok (some { id := 5, title := "New", description := "", tags := [],
                  platforms := [], type := "MOVIE", createdAt := 0, releaseDate := 0 }) :=
  (mediaUpdate_aggregates_over_collections c10Db 5 20
    (fun x => { x with title := "New" }) ⟨5, "Film", "", [], [], "MOVIE", 0, 0⟩
    (by decide)).1
    (Or.inr ⟨⟨2, "B", "", [], Visibility.PRIVATE, 11, 0, 0⟩, by decide,
      ⟨100, 2, 20, CollectionRole.COLLABORATOR, false, 0⟩, by decide, rfl, rfl,
      Or.inr rfl⟩)

/-- The rows strictly after the cursor form a sublist of the sorted rows. -/
theorem afterCursor_sublist {α : Type} (rowId : α → Nat) (l : List α) (c : Nat) :
    (afterCursor rowId l c).Sublist l :=
  (List.drop_sublist 1 (l.dropWhile (fun r => rowId r != c))).trans
    (List.dropWhile_sublist _)

/-- Sorting permutes the rows, so membership is unchanged. -/
theorem mem_sortByLE {α : Type} (le : α → α → Bool) (l : List α) (a : α) :
    a ∈ sortByLE le l ↔ a ∈ l :=
  (List.perm_insertionSort _ l).mem_iff

/-- Sorting preserves the row count. -/
theorem length_sortByLE {α : Type} (le : α → α → Bool) (l : List α) :
    (sortByLE le l).length = l.length :=
  (List.perm_insertionSort _ l).length_eq

/-- The effective page size is always positive (`pageSize || 20` with the
schema's `min(1)`; even a raw `0` falls back to the default). -/
theorem effPageSize_pos (q : ListQuery) : 0 < effPageSize q := by
  rw [effPageSize, jsOrNat.eq_def]
  cases q.pageSize with
  | none => decide
  | some n =>
    simp only
    by_cases h : (n == 0) = true
    · rw [if_pos h]; decide
    · rw [if_neg h]
      have : ¬n = 0 := by simpa using h
      omega

/-- Every row of the `listCollections` response matches the effective
`where` clause. -/
theorem mem_listCollections_matches_where (db : DB) (q : ListQuery) (userId : Option Nat) :
    ∀ c ∈ (listCollections db q userId).data, collectionListWhere db q userId c = true := by
  intro c hc
  have hmem : c ∈ collectionFilteredRows db q userId := by
    cases hq : q.cursor with
    | some cv =>
      simp only [listCollections, hq] at hc
      have h1 : c ∈ collectionCursorRaw db q userId cv := by
        by_cases hM : effPageSize q < (collectionCursorRaw db q userId cv).length
        · rw [if_pos hM] at hc
          exact List.mem_of_mem_take hc
        · rw [if_neg hM] at hc
          exact hc
      have h2 : c ∈ afterCursor (·.id) (collectionSortedRows db q userId) cv :=
        List.mem_of_mem_take h1
      have h3 : c ∈ collectionSortedRows db q userId :=
        (afterCursor_sublist _ _ _).subset h2
      exact (mem_sortByLE _ _ c).1 h3
    | none =>
      simp only [listCollections, hq] at hc
      have h2 : c ∈ collectionSortedRows db q userId :=
        List.mem_of_mem_drop (List.mem_of_mem_take hc)
      exact (mem_sortByLE _ _ c).1 h2
  exact (List.mem_filter.1 hmem).2

/-- The effective `where` clause is at least as strong as the access
clause, whatever the caller-supplied filter is. -/
theorem collectionListWhere_implies_access (db : DB) (q : ListQuery) (userId : Option Nat)
    (c : Collection) (h : collectionListWhere db q userId c = true) :
    evalCollectionAccess db userId c = true := by
  rw [collectionListWhere] at h
  by_cases he : (buildCollectionWhereClause q).isEmptyObj = true
  · rwa [if_pos he] at h
  · rw [if_neg he] at h
    simp only [Bool.and_eq_true] at h
    exact h.2

/-- Claim C3: every collection returned by a list — whatever tag/text filter
the caller supplies — and every collection returned by fetch-by-id
satisfies the caller's visibility predicate (the evaluated
`buildAccessWhere` clause). -/
theorem listings_respect_visibility (db : DB) (q : ListQuery) (userId : Option Nat) :
    (∀ c ∈ (listCollections db q userId).data, evalCollectionAccess db userId c = true) ∧
    (∀ id c, collectionGetById db id userId = some c →
      c.id = id ∧ evalCollectionAccess db userId c = true) := by
  constructor
  · intro c hc
    exact collectionListWhere_implies_access db q userId c
      (mem_listCollections_matches_where db q userId c hc)
  · intro id c hfind
    have hp := List.find?_some hfind
    simp only [Bool.and_eq_true, beq_iff_eq] at hp
    exact hp

/-- A concrete store for the C3 witness: one public and one private
collection; only the public one may be served to an anonymous caller. -/
def c3Db : DB :=
  ⟨[10],
    [⟨1, "Pub", "", [], Visibility.PUBLIC, 10, 0, 0⟩,
     ⟨2, "Priv", "", [], Visibility.PRIVATE, 10, 0, 0⟩], [], [], []⟩

/-- The default (everything-absent) query used by concrete instances. -/
def emptyQuery : ListQuery :=
  ⟨none, none, none, none, none, none, none, none, none, none, none⟩

/-- Witness for C3 at a concrete store: the public collection served to an
anonymous caller satisfies the anonymous visibility predicate. -/
theorem listings_respect_visibility_witness :
    evalCollectionAccess c3Db none ⟨1, "Pub", "", [], Visibility.PUBLIC, 10, 0, 0⟩ = true :=
  (listings_respect_visibility c3Db emptyQuery none).1
    ⟨1, "Pub", "", [], Visibility.PUBLIC, 10, 0, 0⟩ (by decide)

/-- `ceilDiv` is the exact ceiling: `t ≤ ⌈t/P⌉·P < t + P` for positive `P`. -/
theorem ceilDiv_bounds (t P : Nat) (hP : 0 < P) :
    t ≤ ceilDiv t P * P ∧ ceilDiv t P * P < t + P := by
  rw [ceilDiv]
  have h1 := Nat.div_add_mod (t + P - 1) P
  have h2 := Nat.mod_lt (t + P - 1) hP
  rw [Nat.mul_comm]
  omega

/-- The offset link builder: `next` present exactly below the last page,
`prev` present exactly above page 1. -/
theorem buildPaginationLinks_next_prev (baseUrl : String) (params : List (String × String))
    (page pageSize pages : Nat) :
    ((buildPaginationLinks baseUrl params page pageSize pages).next.isSome = true ↔
      page < pages) ∧
    ((buildPaginationLinks baseUrl params page pageSize pages).prev.isSome = true ↔
      1 < page) := by
  rw [buildPaginationLinks]
  constructor
  · by_cases h : page < pages
    · simp [h]
    · simp [h]
  · by_cases h : 1 < page
    · simp [h]
    · simp [h]

/-- Claim C7: in offset mode the envelope reports the exact page count
(`pages` is the least number of pages covering `total` rows), `next` is
present iff `page < pages`, `prev` iff `page > 1`, and a page beyond the
last yields an empty `data` array while `total` stays the full filtered
count. -/
theorem offset_pagination_envelope (db : DB) (q : ListQuery) (userId : Option Nat)
    (hq : q.cursor = none) :
    (listCollections db q userId).total ≤
      (listCollections db q userId).pages * (listCollections db q userId).pageSize ∧
    (listCollections db q userId).pages * (listCollections db q userId).pageSize <
      (listCollections db q userId).total + (listCollections db q userId).pageSize ∧
    ((listCollections db q userId).links.next.isSome = true ↔
      (listCollections db q userId).page < (listCollections db q userId).pages) ∧
    ((listCollections db q userId).links.prev.isSome = true ↔
      1 < (listCollections db q userId).page) ∧
    ((listCollections db q userId).pages < (listCollections db q userId).page →
      (listCollections db q userId).data = []) ∧
    (listCollections db q userId).total = (collectionFilteredRows db q userId).length := by
  have hP := effPageSize_pos q
  simp only [listCollections, hq]
  refine ⟨?_, ?_, ?_, ?_, ?_, trivial⟩
  · exact (ceilDiv_bounds _ _ hP).1
  · exact (ceilDiv_bounds _ _ hP).2
  · exact (buildPaginationLinks_next_prev _ _ _ _ _).1
  · exact (buildPaginationLinks_next_prev _ _ _ _ _).2
  · intro hbeyond
    have hlen : (collectionSortedRows db q userId).length =
        (collectionFilteredRows db q userId).length := length_sortByLE _ _
    have hskip : (collectionFilteredRows db q userId).length ≤
        (effPage q - 1) * effPageSize q := by
      have h1 : ceilDiv (collectionFilteredRows db q userId).length (effPageSize q) ≤
          effPage q - 1 := by omega
      calc (collectionFilteredRows db q userId).length
          ≤ ceilDiv (collectionFilteredRows db q userId).length (effPageSize q) *
              effPageSize q := (ceilDiv_bounds _ _ hP).1
        _ ≤ (effPage q - 1) * effPageSize q := Nat.mul_le_mul_right _ h1
    rw [List.drop_eq_nil_of_le (by omega), List.take_nil]

/-- A concrete store for the C7 witness: three public collections listed at
`pageSize = 2`. -/
def c7Db : DB :=
  ⟨[10],
    [⟨1, "A", "", [], Visibility.PUBLIC, 10, 1, 0⟩,
     ⟨2, "B", "", [], Visibility.PUBLIC, 10, 2, 0⟩,
     ⟨3, "C", "", [], Visibility.PUBLIC, 10, 3, 0⟩], [], [], []⟩

/-- The page-1, size-2 offset query of the C7 witness. -/
def c7Query : ListQuery :=
  ⟨some 1, some 2, none, none, none, none, none, none, none, none, none⟩

/-- Witness for C7 at a concrete store: 3 rows at page size 2 give
`2 = pages` (checked through the ceiling bounds), a `next` link and no
`prev` link. -/
theorem offset_pagination_envelope_witness :
    (listCollections c7Db c7Query none).total ≤
      (listCollections c7Db c7Query none).pages *
        (listCollections c7Db c7Query none).pageSize ∧
    (listCollections c7Db c7Query none).pages *
        (listCollections c7Db c7Query none).pageSize <
      (listCollections c7Db c7Query none).total +
        (listCollections c7Db c7Query none).pageSize ∧
    (listCollections c7Db c7Query none).links.next.isSome = true ∧
    (listCollections c7Db c7Query none).links.prev.isSome = false := by
  have h := offset_pagination_envelope c7Db c7Query none rfl
  refine ⟨h.1, h.2.1, h.2.2.1.2 (by decide), ?_⟩
  have hprev := h.2.2.2.1
  have hpage : (listCollections c7Db c7Query none).page = 1 := by decide
  cases hb : (listCollections c7Db c7Query none).links.prev.isSome
  · rfl
  · exact absurd (hpage ▸ hprev.1 hb) (by decide)

/-- Sorting keeps row ids pairwise distinct. -/
theorem sortByLE_map_nodup {α : Type} (le : α → α → Bool) (rowId : α → Nat) (l : List α)
    (h : (l.map rowId).Nodup) : ((sortByLE le l).map rowId).Nodup :=
  ((List.perm_insertionSort _ l).map rowId).nodup_iff.2 h

/-- Filtering keeps row ids pairwise distinct. -/
theorem filter_map_nodup {α : Type} (p : α → Bool) (rowId : α → Nat) (l : List α)
    (h : (l.map rowId).Nodup) : ((l.filter p).map rowId).Nodup :=
  List.Nodup.sublist ((List.filter_sublist l).map rowId) h

/-- With pairwise-distinct ids, the cursor row itself never reappears among
the rows strictly after the cursor. -/
theorem cursor_not_mem_afterCursor {α : Type} (rowId : α → Nat) (l : List α) (cv : Nat)
    (hnd : (l.map rowId).Nodup) : cv ∉ (afterCursor rowId l cv).map rowId := by
  induction l with
  | nil => simp [afterCursor]
  | cons a t ih =>
    simp only [List.map_cons, List.nodup_cons] at hnd
    by_cases ha : rowId a = cv
    · have hp : (rowId a != cv) = false := by simp [ha]
      rw [afterCursor, List.dropWhile_cons, hp]
      simp only [Bool.false_eq_true, if_false, List.drop_succ_cons, List.drop_zero]
      rw [← ha]
      exact hnd.1
    · have hp : (rowId a != cv) = true := by simp [ha]
      rw [afterCursor, List.dropWhile_cons, hp]
      simp only [if_true]
      exact ih hnd.2

/-- With pairwise-distinct ids, positioning after the row at index `i`
drops exactly the first `i + 1` rows. -/
theorem afterCursor_eq_drop {α : Type} (rowId : α → Nat) :
    ∀ (l : List α), (l.map rowId).Nodup →
      ∀ i (h : i < l.length), afterCursor rowId l (rowId (l.get ⟨i, h⟩)) = l.drop (i + 1) := by
  intro l
  induction l with
  | nil => intro _ i h; exact absurd h (by simp)
  | cons a t ih =>
    intro hnd i h
    simp only [List.map_cons, List.nodup_cons] at hnd
    cases i with
    | zero =>
      rw [afterCursor, List.dropWhile_cons]
      simp only [List.get_eq_getElem, List.getElem_cons_zero]
      have hp : (rowId a != rowId a) = false := by simp
      rw [hp]
      simp
    | succ j =>
      have hj : j < t.length := by simpa using h
      have hmem : rowId (t.get ⟨j, hj⟩) ∈ t.map rowId :=
        List.mem_map.2 ⟨t.get ⟨j, hj⟩, List.get_mem t j hj, rfl⟩
      have hne : rowId a ≠ rowId (t.get ⟨j, hj⟩) := fun he => hnd.1 (he ▸ hmem)
      have hgetc : (a :: t).get ⟨j + 1, h⟩ = t.get ⟨j, hj⟩ := by
        simp
      rw [afterCursor, List.dropWhile_cons, hgetc]
      have hp : (rowId a != rowId (t.get ⟨j, hj⟩)) = true := by simpa using hne
      rw [hp]
      simp only [if_true, List.drop_succ_cons]
      have := ih hnd.2 j hj
      rw [afterCursor] at this
      simpa using this

/-- The sorted collection rows keep ids pairwise distinct. -/
theorem collectionSortedRows_map_nodup (db : DB) (q : ListQuery) (userId : Option Nat)
    (hnd : (db.collections.map (·.id)).Nodup) :
    ((collectionSortedRows db q userId).map (·.id)).Nodup :=
  sortByLE_map_nodup _ _ _ (filter_map_nodup _ _ _ hnd)

/-- The sorted media rows keep ids pairwise distinct. -/
theorem mediaSortedRows_map_nodup (db : DB) (q : ListQuery) (userId : Option Nat)
    (hnd : (db.media.map (·.id)).Nodup) :
    ((mediaSortedRows db q userId).map (·.id)).Nodup :=
  sortByLE_map_nodup _ _ _ (filter_map_nodup _ _ _ hnd)

/-- Claim C8: with a cursor present both listings run in cursor mode: the
`page` parameter is ignored (same response for any `page`, no error);
`total` and `pages` are reported as 0 and no `prev` link is produced;
at most `pageSize` rows are returned out of the `pageSize + 1` fetched
strictly after the cursor row (which never reappears, given distinct ids);
when all `pageSize + 1` rows came back the data is truncated to `pageSize`
and the returned cursor is the id of its last item, otherwise the returned
cursor is `None`. -/
theorem cursor_mode_envelope (db : DB) (q : ListQuery) (userId : Option Nat) (cv : Nat)
    (hq : q.cursor = some cv) :
    ((listCollections db q userId).total = 0 ∧ (listCollections db q userId).pages = 0 ∧
      (listCollections db q userId).links.prev = none ∧
      (listCollections db q userId).page = 1 ∧
      (listMedia db q userId).total = 0 ∧ (listMedia db q userId).pages = 0 ∧
      (listMedia db q userId).links.prev = none ∧ (listMedia db q userId).page = 1) ∧
    (∀ p₁ p₂ : Option Nat,
      listCollections db { q with page := p₁ } userId =
        listCollections db { q with page := p₂ } userId ∧
      listMedia db { q with page := p₁ } userId =
        listMedia db { q with page := p₂ } userId) ∧
    ((listCollections db q userId).data.length ≤ effPageSize q ∧
      (listMedia db q userId).data.length ≤ effPageSize q) ∧
    ((collectionCursorRaw db q userId cv).length = effPageSize q + 1 →
      (listCollections db q userId).data =
        (collectionCursorRaw db q userId cv).take (effPageSize q) ∧
      (listCollections db q userId).cursor =
        ((listCollections db q userId).data.getLast?).map (·.id)) ∧
    ((collectionCursorRaw db q userId cv).length ≤ effPageSize q →
      (listCollections db q userId).data = collectionCursorRaw db q userId cv ∧
      (listCollections db q userId).cursor = none) ∧
    ((mediaCursorRaw db q userId cv).length = effPageSize q + 1 →
      (listMedia db q userId).data = (mediaCursorRaw db q userId cv).take (effPageSize q) ∧
      (listMedia db q userId).cursor =
        ((listMedia db q userId).data.getLast?).map (·.id)) ∧
    ((mediaCursorRaw db q userId cv).length ≤ effPageSize q →
      (listMedia db q userId).data = mediaCursorRaw db q userId cv ∧
      (listMedia db q userId).cursor = none) ∧
    ((db.collections.map (·.id)).Nodup →
      cv ∉ (listCollections db q userId).data.map (·.id)) ∧
    ((db.media.map (·.id)).Nodup →
      cv ∉ (listMedia db q userId).data.map (·.id)) := by
  refine ⟨?_, ?_, ?_, ?_, ?_, ?_, ?_, ?_, ?_⟩
  · simp [listCollections, listMedia, hq, buildCursorPaginationLinks]
  · intro p₁ p₂
    constructor
    · simp only [listCollections, hq]
      rfl
    · simp only [listMedia, hq]
      rfl
  · constructor
    · simp only [listCollections, hq]
      by_cases hM : effPageSize q < (collectionCursorRaw db q userId cv).length
      · rw [if_pos hM]
        simp [List.length_take]
      · rw [if_neg hM]
        omega
    · simp only [listMedia, hq]
      by_cases hM : effPageSize q < (mediaCursorRaw db q userId cv).length
      · rw [if_pos hM]
        simp [List.length_take]
      · rw [if_neg hM]
        omega
  · intro hlen
    have hM : effPageSize q < (collectionCursorRaw db q userId cv).length := by omega
    simp only [listCollections, hq, if_pos hM]
    exact ⟨trivial, trivial⟩
  · intro hlen
    have hM : ¬effPageSize q < (collectionCursorRaw db q userId cv).length := by omega
    simp only [listCollections, hq, if_neg hM]
    exact ⟨trivial, trivial⟩
  · intro hlen
    have hM : effPageSize q < (mediaCursorRaw db q userId cv).length := by omega
    simp only [listMedia, hq, if_pos hM]
    exact ⟨trivial, trivial⟩
  · intro hlen
    have hM : ¬effPageSize q < (mediaCursorRaw db q userId cv).length := by omega
    simp only [listMedia, hq, if_neg hM]
    exact ⟨trivial, trivial⟩
  · intro hnd hmem
    have hnds := collectionSortedRows_map_nodup db q userId hnd
    have hsub : (listCollections db q userId).data.Sublist
        (afterCursor (·.id) (collectionSortedRows db q userId) cv) := by
      simp only [listCollections, hq]
      by_cases hM : effPageSize q < (collectionCursorRaw db q userId cv).length
      · rw [if_pos hM]
        exact (List.take_sublist _ _).trans (List.take_sublist _ _)
      · rw [if_neg hM]
        exact List.take_sublist _ _
    exact cursor_not_mem_afterCursor (·.id) (collectionSortedRows db q userId) cv hnds
      ((hsub.map (·.id)).subset hmem)
  · intro hnd hmem
    have hnds := mediaSortedRows_map_nodup db q userId hnd
    have hsub : (listMedia db q userId).data.Sublist
        (afterCursor (·.id) (mediaSortedRows db q userId) cv) := by
      simp only [listMedia, hq]
      by_cases hM : effPageSize q < (mediaCursorRaw db q userId cv).length
      · rw [if_pos hM]
        exact (List.take_sublist _ _).trans (List.take_sublist _ _)
      · rw [if_neg hM]
        exact List.take_sublist _ _
    exact cursor_not_mem_afterCursor (·.id) (mediaSortedRows db q userId) cv hnds
      ((hsub.map (·.id)).subset hmem)

/-- A concrete store for the C8 witness: three public collections fetched
with `pageSize = 1` after cursor 3. -/
def c8Db : DB :=
  ⟨[10],
    [⟨1, "A", "", [], Visibility.PUBLIC, 10, 1, 0⟩,
     ⟨2, "B", "", [], Visibility.PUBLIC, 10, 2, 0⟩,
     ⟨3, "C", "", [], Visibility.PUBLIC, 10, 3, 0⟩], [], [], []⟩

/-- The cursor-mode query of the C8 witness (`page` noise included). -/
def c8Query : ListQuery :=
  ⟨some 7, some 1, none, none, none, none, none, none, none, none, some 3⟩

/-- Witness for C8 at a concrete store: cursor mode reports zero totals, no
`prev`, ignores `page`, and never returns the cursor row again. -/
theorem cursor_mode_envelope_witness :
    (listCollections c8Db c8Query none).total = 0 ∧
    (listCollections c8Db c8Query none).links.prev = none ∧
    listCollections c8Db { c8Query with page := some 7 } none =
      listCollections c8Db { c8Query with page := some 123 } none ∧
    (3 : Nat) ∉ (listCollections c8Db c8Query none).data.map (·.id) := by
  have h := cursor_mode_envelope c8Db c8Query none 3 rfl
  exact ⟨h.1.1, h.1.2.2.1, (h.2.1 (some 7) (some 123)).1, h.2.2.2.2.2.2.2.1 (by decide)⟩

/-- The collection field comparison is a composition of `compareOn`
projections, whatever the requested sort field is. -/
theorem collectionFieldCmp_eq (sort : String) :
    collectionFieldCmp sort =
      (if (sort == "name") = true then compareOn (·.name)
       else if (sort == "updatedAt") = true then compareOn (·.updatedAt)
       else compareOn (·.createdAt)) := by
  funext a b
  rw [collectionFieldCmp]
  by_cases h1 : (sort == "name") = true
  · rw [if_pos h1, if_pos h1]; rfl
  · rw [if_neg h1, if_neg h1]
    by_cases h2 : (sort == "updatedAt") = true
    · rw [if_pos h2, if_pos h2]; rfl
    · rw [if_neg h2, if_neg h2]; rfl

/-- The collection field comparison is oriented and transitive. -/
theorem transCmp_collectionFieldCmp (sort : String) :
    Batteries.TransCmp (collectionFieldCmp sort) := by
  rw [collectionFieldCmp_eq]
  by_cases h1 : (sort == "name") = true
  · rw [if_pos h1]; infer_instance
  · rw [if_neg h1]
    by_cases h2 : (sort == "updatedAt") = true
    · rw [if_pos h2]; infer_instance
    · rw [if_neg h2]; infer_instance

/-- Reversing a lawful comparator keeps it lawful. -/
theorem transCmp_swap {α : Type} (cmp : α → α → Ordering) (h : Batteries.TransCmp cmp) :
    Batteries.TransCmp (fun a b => (cmp a b).swap) := by
  haveI := h
  have he : (fun a b => (cmp a b).swap) = flip cmp := by
    funext a b
    rw [Batteries.OrientedCmp.symm]
    rfl
  rw [he]
  infer_instance

/-- Applying the requested order keeps a lawful comparator lawful. -/
theorem transCmp_applyOrder {α : Type} (order : String) (cmp : α → α → Ordering)
    (h : Batteries.TransCmp cmp) :
    Batteries.TransCmp (fun a b => applyOrder order (cmp a b)) := by
  by_cases ho : (order == "asc") = true
  · have he : (fun a b => applyOrder order (cmp a b)) = cmp := by
      funext a b
      rw [applyOrder, if_pos ho]
    rw [he]; exact h
  · have he : (fun a b => applyOrder order (cmp a b)) = (fun a b => (cmp a b).swap) := by
      funext a b
      rw [applyOrder, if_neg ho]
    rw [he]; exact transCmp_swap cmp h

/-- The full collection comparator (requested field, requested order, id
tiebreak) is oriented and transitive. -/
theorem transCmp_collectionCmp (sort order : String) :
    Batteries.TransCmp (collectionCmp sort order) := by
  have he : collectionCmp sort order =
      compareLex (fun a b => applyOrder order (collectionFieldCmp sort a b))
        (compareOn (·.id)) := rfl
  rw [he]
  haveI := transCmp_applyOrder order (collectionFieldCmp sort)
    (transCmp_collectionFieldCmp sort)
  infer_instance

/-- A stable sort under a lawful comparator produces a row list pairwise
ordered by "comparator not `gt`". -/
theorem sortByLE_pairwise_of_transCmp {α : Type} (cmp : α → α → Ordering)
    (h : Batteries.TransCmp cmp) (l : List α) :
    List.Pairwise (fun a b => ordLE (cmp a b) = true)
      (sortByLE (fun a b => ordLE (cmp a b)) l) := by
  rw [sortByLE]
  have hiff : ∀ a b : α, (ordLE (cmp a b) = true) ↔ cmp a b ≠ .gt := by
    intro a b
    rw [ordLE]
    cases cmp a b <;> decide
  haveI htr : IsTrans α (fun a b => ordLE (cmp a b) = true) := by
    constructor
    intro a b c hab hbc
    rw [hiff] at hab hbc ⊢
    exact h.le_trans hab hbc
  haveI hto : IsTotal α (fun a b => ordLE (cmp a b) = true) := by
    constructor
    intro a b
    by_cases hab : cmp a b = .gt
    · right
      rw [hiff]
      intro hg
      have h2 := Batteries.OrientedCmp.cmp_eq_gt.1 hg
      rw [hab] at h2
      exact absurd h2 (by decide)
    · left
      rw [hiff]
      exact hab
  exact List.sorted_insertionSort _ _

/-- Every `listCollections` response, in either mode, is a contiguous slice
of the sorted row list. -/
theorem listCollections_data_sublist (db : DB) (q : ListQuery) (userId : Option Nat) :
    (listCollections db q userId).data.Sublist (collectionSortedRows db q userId) := by
  cases hq : q.cursor with
  | some cv =>
    simp only [listCollections, hq]
    by_cases hM : effPageSize q < (collectionCursorRaw db q userId cv).length
    · rw [if_pos hM]
      exact (List.take_sublist _ _).trans
        ((List.take_sublist _ _).trans (afterCursor_sublist _ _ _))
    · rw [if_neg hM]
      exact (List.take_sublist _ _).trans (afterCursor_sublist _ _ _)
  | none =>
    simp only [listCollections, hq]
    exact (List.take_sublist _ _).trans (List.drop_sublist _ _)

/-- The ordering the claim asserts for media listings as well: requested
field and order with a secondary ascending id tiebreak (this is exactly
what the collection listing passes to the store, transplanted to media; the
media listing itself omits the tiebreak). -/
def specTiebreakMediaLE (sort order : String) (a b : Media) : Bool :=
  ordLE ((applyOrder order (mediaFieldCmp sort a b)).then (compare a.id b.id))

/-- Two media rows with the same `createdAt`, stored in descending-id table
order, inside one public collection. -/
def c4CexDb : DB :=
  ⟨[10], [⟨7, "P", "", [], Visibility.PUBLIC, 10, 0, 0⟩],
    [⟨2, "X", "", [], [], "MOVIE", 5, 0⟩, ⟨1, "Y", "", [], [], "MOVIE", 5, 0⟩],
    [⟨100, 7, 2, 0, 0⟩, ⟨101, 7, 1, 0, 0⟩], []⟩

/-- Counterexample to claim C4 as stated: the media listing orders rows by
the sort field only, so two rows with equal `createdAt` come back in table
order `[2, 1]`, not in the claimed secondary ascending id order — the media
result is not pairwise ordered under the claimed tiebroken relation. -/
theorem media_list_order_not_id_tiebroken :
    (listMedia c4CexDb emptyQuery none).data.map (·.id) = [2, 1] ∧
    ¬ List.Pairwise (fun a b => specTiebreakMediaLE "createdAt" "desc" a b = true)
      (listMedia c4CexDb emptyQuery none).data := by
  decide

/-- Indexing after a drop shifts the index, at the `Option` level. -/
theorem getElem?_drop_add {α : Type} (l : List α) (i j : Nat) :
    (l.drop i)[j]? = l[i + j]? := by
  by_cases h : j < (l.drop i).length
  · have h2 : i + j < l.length := by
      rw [List.length_drop] at h
      omega
    rw [List.getElem?_eq_getElem h, List.getElem?_eq_getElem h2]
    exact congrArg some (List.getElem_drop l)
  · have hge : (l.drop i).length ≤ j := Nat.le_of_not_lt h
    have hge2 : l.length ≤ i + j := by
      rw [List.length_drop] at hge
      omega
    rw [List.getElem?_eq_none hge, List.getElem?_eq_none hge2]

/-- `afterCursor_eq_drop`, restated through `Option` indexing. -/
theorem afterCursor_eq_drop_of_getElem? {α : Type} (rowId : α → Nat) (l : List α)
    (hnd : (l.map rowId).Nodup) (i : Nat) (el : α) (h : l[i]? = some el) :
    afterCursor rowId l (rowId el) = l.drop (i + 1) := by
  obtain ⟨hlt, hval⟩ := List.getElem?_eq_some_iff.1 h
  have hlem := afterCursor_eq_drop rowId l hnd i hlt
  simp only [List.get_eq_getElem] at hlem
  rw [hval] at hlem
  exact hlem

/-- Claim C4 (amended): collection listings are primary-key-stable — in both
modes the returned rows are pairwise ordered by the requested sort field
and order with a secondary ascending id tiebreak, and, with
pairwise-distinct collection ids, two consecutive cursor fetches never
return overlapping collection ids.  (Media listings omit the id tiebreak;
see the counterexample.) -/
theorem collection_order_stable_and_cursor_disjoint
    (db : DB) (q : ListQuery) (userId : Option Nat) (c₀ x : Nat)
    (hnd : (db.collections.map (·.id)).Nodup)
    (hq : q.cursor = some c₀)
    (hnext : (listCollections db q userId).cursor = some x) :
    (∀ (db' : DB) (q' : ListQuery) (userId' : Option Nat),
      List.Pairwise
        (fun a b => collectionOrderLE (effSort q') (effOrder q') a b = true)
        (listCollections db' q' userId').data) ∧
    (∀ a ∈ (listCollections db q userId).data,
      ∀ b ∈ (listCollections db { q with cursor := some x } userId).data,
        a.id ≠ b.id) := by
  constructor
  · intro db' q' userId'
    have hs := sortByLE_pairwise_of_transCmp
      (collectionCmp (effSort q') (effOrder q'))
      (transCmp_collectionCmp _ _) (collectionFilteredRows db' q' userId')
    exact List.Pairwise.sublist (listCollections_data_sublist db' q' userId') hs
  · intro a ha b hb
    have hP : 0 < effPageSize q := effPageSize_pos q
    have hnds : ((collectionSortedRows db q userId).map (·.id)).Nodup :=
      collectionSortedRows_map_nodup db q userId hnd
    by_cases hM : effPageSize q < (collectionCursorRaw db q userId c₀).length
    case neg =>
      exfalso
      simp only [listCollections, hq, if_neg hM] at hnext
      exact Option.noConfusion hnext
    simp only [listCollections, hq, if_pos hM] at hnext ha
    have hlenraw : (collectionCursorRaw db q userId c₀).length = effPageSize q + 1 := by
      have hle : (collectionCursorRaw db q userId c₀).length ≤ effPageSize q + 1 := by
        rw [collectionCursorRaw]
        simp [List.length_take]
      omega
    have hAne : afterCursor (·.id) (collectionSortedRows db q userId) c₀ ≠ [] := by
      intro hnil
      rw [collectionCursorRaw, hnil] at hlenraw
      simp only [List.take_nil, List.length_nil] at hlenraw
      omega
    have hc0 : c₀ ∈ (collectionSortedRows db q userId).map (·.id) := by
      by_contra hno
      apply hAne
      rw [afterCursor]
      have hdw : (collectionSortedRows db q userId).dropWhile (fun r => r.id != c₀) = [] := by
        rw [List.dropWhile_eq_nil_iff]
        intro r hr
        have hne : r.id ≠ c₀ := fun he => hno (List.mem_map.2 ⟨r, hr, he⟩)
        simpa using hne
      rw [hdw]
      rfl
    obtain ⟨r0, hr0mem, hr0id⟩ := List.mem_map.1 hc0
    obtain ⟨n, hn, hget0⟩ := List.mem_iff_getElem.1 hr0mem
    have hA : afterCursor (·.id) (collectionSortedRows db q userId) c₀ =
        (collectionSortedRows db q userId).drop (n + 1) := by
      have h0 : (collectionSortedRows db q userId)[n]? = some r0 :=
        List.getElem?_eq_some_iff.2 ⟨hn, hget0⟩
      have hlem := afterCursor_eq_drop_of_getElem? (·.id)
        (collectionSortedRows db q userId) hnds n r0 h0
      rw [show (fun c : Collection => c.id) r0 = r0.id from rfl, hr0id] at hlem
      exact hlem
    have hmlen : effPageSize q + 1 ≤
        ((collectionSortedRows db q userId).drop (n + 1)).length := by
      rw [collectionCursorRaw, hA, List.length_take] at hlenraw
      omega
    have htt : ((((collectionSortedRows db q userId).drop (n + 1)).take
        (effPageSize q + 1)).take (effPageSize q)) =
        ((collectionSortedRows db q userId).drop (n + 1)).take (effPageSize q) := by
      rw [List.take_take]
      congr 1
      omega
    rw [collectionCursorRaw, hA] at ha hnext
    rw [htt] at ha hnext
    have hl : (((collectionSortedRows db q userId).drop (n + 1)).take
        (effPageSize q)).length = effPageSize q := by
      rw [List.length_take]
      omega
    have hgl : (((collectionSortedRows db q userId).drop (n + 1)).take
        (effPageSize q)).getLast? =
        ((collectionSortedRows db q userId).drop (n + 1))[effPageSize q - 1]? := by
      rw [List.getLast?_eq_getElem?, hl, List.getElem?_take, if_pos (by omega)]
    have hdropelem : ((collectionSortedRows db q userId).drop (n + 1))[effPageSize q - 1]? =
        (collectionSortedRows db q userId)[n + effPageSize q]? := by
      rw [getElem?_drop_add]
      congr 1
      omega
    rw [hgl, hdropelem] at hnext
    cases hel : (collectionSortedRows db q userId)[n + effPageSize q]? with
    | none =>
      rw [hel] at hnext
      exact absurd hnext (by simp)
    | some el =>
      rw [hel] at hnext
      have hxid : el.id = x := by simpa using hnext
      have hA2 : afterCursor (·.id) (collectionSortedRows db q userId) x =
          (collectionSortedRows db q userId).drop (n + effPageSize q + 1) := by
        have hlem := afterCursor_eq_drop_of_getElem? (·.id)
          (collectionSortedRows db q userId) hnds (n + effPageSize q) el hel
        rw [show (fun c : Collection => c.id) el = el.id from rfl, hxid] at hlem
        exact hlem
      have hq2 : ({ q with cursor := some x } : ListQuery).cursor = some x := rfl
      have hsub2 : (listCollections db { q with cursor := some x } userId).data.Sublist
          (afterCursor (·.id)
            (collectionSortedRows db { q with cursor := some x } userId) x) := by
        simp only [listCollections, hq2]
        by_cases hM2 : effPageSize { q with cursor := some x } <
            (collectionCursorRaw db { q with cursor := some x } userId x).length
        · rw [if_pos hM2]
          exact (List.take_sublist _ _).trans (List.take_sublist _ _)
        · rw [if_neg hM2]
          exact List.take_sublist _ _
      have hsame : collectionSortedRows db { q with cursor := some x } userId =
          collectionSortedRows db q userId := rfl
      rw [hsame, hA2] at hsub2
      have hb2 : b ∈ (collectionSortedRows db q userId).drop (n + effPageSize q + 1) :=
        hsub2.subset hb
      have hndm : (((collectionSortedRows db q userId).drop (n + 1)).map (·.id)).Nodup :=
        List.Nodup.sublist ((List.drop_sublist _ _).map _) hnds
      have happ : ((((collectionSortedRows db q userId).drop (n + 1)).take
            (effPageSize q)).map (·.id) ++
          (((collectionSortedRows db q userId).drop (n + 1)).drop
            (effPageSize q)).map (·.id)).Nodup := by
        rw [← List.map_append, List.take_append_drop]
        exact hndm
      have hdisj := (List.nodup_append.1 happ).2.2
      have hbdrop : b ∈ ((collectionSortedRows db q userId).drop (n + 1)).drop
          (effPageSize q) := by
        rw [List.drop_drop]
        have hidx2 : n + 1 + effPageSize q = n + effPageSize q + 1 := by omega
        rw [hidx2]
        exact hb2
      intro heq
      exact hdisj (List.mem_map.2 ⟨a, ha, rfl⟩) (heq ▸ List.mem_map.2 ⟨b, hbdrop, rfl⟩)

/-- A concrete store for the C4 witness: three public collections, two of
them with equal `createdAt`, cursor-paged one row at a time. -/
def c4wDb : DB :=
  ⟨[10],
    [⟨1, "A", "", [], Visibility.PUBLIC, 10, 5, 0⟩,
     ⟨2, "B", "", [], Visibility.PUBLIC, 10, 5, 0⟩,
     ⟨3, "C", "", [], Visibility.PUBLIC, 10, 9, 0⟩], [], [], []⟩

/-- The `pageSize = 1`, `cursor = 3` query of the C4 witness. -/
def c4wQuery : ListQuery :=
  ⟨none, some 1, none, none, none, none, none, none, none, none, some 3⟩

/-- Witness for the amended C4 at a concrete store: the page is tiebreak
ordered and the rows of two consecutive cursor fetches have distinct ids. -/
theorem collection_order_stable_and_cursor_disjoint_witness :
    List.Pairwise
      (fun a b => collectionOrderLE (effSort c4wQuery) (effOrder c4wQuery) a b = true)
      (listCollections c4wDb c4wQuery none).data ∧
    (⟨1, "A", "", [], Visibility.PUBLIC, 10, 5, 0⟩ : Collection).id ≠
      (⟨2, "B", "", [], Visibility.PUBLIC, 10, 5, 0⟩ : Collection).id := by
  have h := collection_order_stable_and_cursor_disjoint c4wDb c4wQuery none 3 1
    (by decide) rfl (by decide)
  exact ⟨h.1 c4wDb c4wQuery none,
    h.2 ⟨1, "A", "", [], Visibility.PUBLIC, 10, 5, 0⟩ (by decide)
      ⟨2, "B", "", [], Visibility.PUBLIC, 10, 5, 0⟩ (by decide)⟩

end AoS
